import Mathlib

/-!
Verification of the transport capability descriptor of a pluggable network
engine (`src/transport.rs`) against its natural-language specification.

The file shallowly embeds the Rust source: the `Transport` enum and its
capability methods are translated to Lean definitions; the parts of the
repository that the source file references but that are not present
(`engine.rs`, the four adapter modules, the framing codec of `framed_tcp`,
the UDP listener setup and the `send` path of the event engine) are
modelled from the specification, each marked `Modelled from the spec:`.
-/

namespace MessageIo

/-! ## Adapter constants

The four adapter modules (`tcp.rs`, `framed_tcp.rs`, `udp.rs`,
`web_socket.rs`) are not part of the sources; the spec records their payload
ceilings as fixed implementation constants whose exact values are an open
question. We pick fixed documented values. -/

namespace tcp

/-- Modelled from the spec: `tcp::INPUT_BUFFER_SIZE`, the maximum bytes a
single read event can produce on plain Tcp (`tcp.rs` is not under `src/`);
a fixed documented value is chosen. -/
def INPUT_BUFFER_SIZE : Nat := 65536

end tcp

namespace framed_tcp

/-- Modelled from the spec: `framed_tcp::MAX_TCP_PAYLOAD_LEN`, the payload
ceiling of one FramedTcp frame (`framed_tcp.rs` is not under `src/`).
The framing header below is a fixed-width 4-byte unsigned big-endian
length, so the ceiling is the largest length it can represent. -/
def MAX_TCP_PAYLOAD_LEN : Nat := 2 ^ 32 - 1

end framed_tcp

namespace udp

/-- Modelled from the spec: `udp::MAX_UDP_PAYLOAD_LEN`, the maximum payload
of one datagram (`udp.rs` is not under `src/`); the classical maximum UDP
payload over IPv4 is chosen. -/
def MAX_UDP_PAYLOAD_LEN : Nat := 65507

end udp

namespace web_socket

/-- Modelled from the spec: `web_socket::MAX_WS_PAYLOAD_LEN`, the local payload ceiling of the engine for the web-socket adapter (`web_socket.rs` is not
under `src/`); a fixed documented value is chosen. -/
def MAX_WS_PAYLOAD_LEN : Nat := 2 ^ 20

end web_socket

/-! ## The `Transport` enum (`src/transport.rs`, lines 19-43) -/

/-- The `Transport` enum: `#[repr(u8)]`, variants in declaration order
`Tcp`, `FramedTcp`, `Udp`, `Ws`. -/
inductive Transport
  | Tcp
  | FramedTcp
  | Udp
  | Ws
deriving DecidableEq, Repr, Fintype

/-- The enumeration of all variants in declaration order (the `EnumIter`
derive). -/
def Transport.iter : List Transport :=
  [.Tcp, .FramedTcp, .Udp, .Ws]

/-- `Transport::id`: `self.into()` under `#[derive(IntoPrimitive)]` and
`#[repr(u8)]`, i.e. the discriminant that Rust assigns by declaration
order starting at 0. -/
def Transport.id : Transport → Nat
  | .Tcp => 0
  | .FramedTcp => 1
  | .Udp => 2
  | .Ws => 3

/-- `Transport::max_message_size` (`src/transport.rs`, lines 60-67). -/
def Transport.max_message_size : Transport → Nat
  | .Tcp => tcp.INPUT_BUFFER_SIZE
  | .FramedTcp => framed_tcp.MAX_TCP_PAYLOAD_LEN
  | .Udp => udp.MAX_UDP_PAYLOAD_LEN
  | .Ws => web_socket.MAX_WS_PAYLOAD_LEN

/-- `Transport::is_connection_oriented` (`src/transport.rs`, lines 71-78). -/
def Transport.is_connection_oriented : Transport → Bool
  | .Tcp => true
  | .FramedTcp => true
  | .Udp => false
  | .Ws => true

/-- `Transport::is_packet_based` (`src/transport.rs`, lines 85-92). -/
def Transport.is_packet_based : Transport → Bool
  | .Tcp => false
  | .FramedTcp => true
  | .Udp => true
  | .Ws => true

/-! ## Adapters and the launcher (`engine.rs` and the adapter modules are
not under `src/`) -/

/-- The four adapter unit structs named by `src/transport.rs`. -/
inductive Adapter
  | TcpAdapter
  | FramedTcpAdapter
  | UdpAdapter
  | WsAdapter
deriving DecidableEq, Repr

/-- Modelled from the spec: `AdapterLauncher` (`engine.rs` is not under
`src/`). The spec describes the Registry as a mapping from adapter id to
Adapter instance, populated by `mount` calls before the engine starts; we
record the sequence of `mount` calls performed on the launcher. -/
structure AdapterLauncher where
  mounts : List (Nat × Adapter)
deriving DecidableEq, Repr

/-- Modelled from the spec: `AdapterLauncher::mount` records the binding
of one adapter id to one adapter instance. -/
def AdapterLauncher.mount (l : AdapterLauncher) (i : Nat) (a : Adapter) :
    AdapterLauncher :=
  ⟨l.mounts ++ [(i, a)]⟩

/-- `Transport::mount_adapter` (`src/transport.rs`, lines 48-55). -/
def Transport.mount_adapter (t : Transport) (l : AdapterLauncher) :
    AdapterLauncher :=
  match t with
  | .Tcp => l.mount t.id .TcpAdapter
  | .FramedTcp => l.mount t.id .FramedTcpAdapter
  | .Udp => l.mount t.id .UdpAdapter
  | .Ws => l.mount t.id .WsAdapter

/-- The adapter corresponding to the own variant of a transport, as the claim
words it (the table visible in the four arms of `mount_adapter`). -/
def Transport.ownAdapter : Transport → Adapter
  | .Tcp => .TcpAdapter
  | .FramedTcp => .FramedTcpAdapter
  | .Udp => .UdpAdapter
  | .Ws => .WsAdapter

/-! ## Display and Debug (`src/transport.rs`, lines 101-105) -/

/-- The derived `Debug` rendering of a `Transport` value: the declared
variant name. -/
def Transport.debug_fmt : Transport → String
  | .Tcp => "Tcp"
  | .FramedTcp => "FramedTcp"
  | .Udp => "Udp"
  | .Ws => "Ws"

/-- `impl std::fmt::Display for Transport`: `fmt` writes the `Debug`
rendering of `self` into the formatter and returns its `fmt::Result`.
Writing into a plain string formatter cannot fail, so the result is `ok`
carrying the text written. -/
def Transport.display_fmt (t : Transport) : Except Unit String :=
  Except.ok t.debug_fmt

/-! ## Framing codec (`framed_tcp.rs` is not under `src/`)

Modelled from the spec (§4.5): a fixed-width unsigned length header in a
defined byte order (here: 4 bytes, big-endian), followed by exactly that
many payload bytes. The decoder is the state machine
`AwaitingHeader`/`AwaitingBody`; a declared length above the ceiling is a
fatal protocol violation (`none`). Bytes are `Nat` values below 256. -/

namespace framed_tcp

/-- Modelled from the spec: the 4-byte big-endian encoding of a frame
length `n < 2 ^ 32`. -/
def encodeLen (n : Nat) : List Nat :=
  [n / 2 ^ 24 % 256, n / 2 ^ 16 % 256, n / 2 ^ 8 % 256, n % 256]

/-- Modelled from the spec: reading a complete 4-byte big-endian length
header. -/
def decodeLen : List Nat → Nat
  | [b0, b1, b2, b3] => b0 * 2 ^ 24 + b1 * 2 ^ 16 + b2 * 2 ^ 8 + b3
  | _ => 0

/-- Modelled from the spec: the encoder rejects (does not truncate) any
payload above the ceiling and otherwise writes length header then payload
as one unit. -/
def encode (payload : List Nat) : Option (List Nat) :=
  if payload.length ≤ MAX_TCP_PAYLOAD_LEN then
    some (encodeLen payload.length ++ payload)
  else none

/-- Modelled from the spec: the decoder states `AwaitingHeader` (partial
header bytes accumulated so far) and `AwaitingBody` (declared length,
accumulated payload bytes so far). -/
inductive DecoderState
  | awaitingHeader (acc : List Nat)
  | awaitingBody (len : Nat) (acc : List Nat)
deriving DecidableEq, Repr

/-- The initial decoder state: an empty partial header. -/
def DecoderState.init : DecoderState := .awaitingHeader []

/-- Modelled from the spec: consuming one incoming byte. Returns the
messages emitted by this byte and the next state, or `none` on the fatal
oversized-header transition. -/
def feedByte (s : DecoderState) (b : Nat) :
    Option (List (List Nat) × DecoderState) :=
  match s with
  | .awaitingHeader acc =>
    let acc2 := acc ++ [b]
    if acc2.length < 4 then some ([], .awaitingHeader acc2)
    else
      let len := decodeLen acc2
      if MAX_TCP_PAYLOAD_LEN < len then none
      else if len = 0 then some ([[]], .awaitingHeader [])
      else some ([], .awaitingBody len [])
  | .awaitingBody len acc =>
    let acc2 := acc ++ [b]
    if acc2.length < len then some ([], .awaitingBody len acc2)
    else some ([acc2], .awaitingHeader [])

/-- Sequencing of two decoding steps: propagate a fatal error, otherwise
run the continuation from the intermediate state and collect the emitted
messages in order. -/
def seqResult (r : Option (List (List Nat) × DecoderState))
    (f : DecoderState → Option (List (List Nat) × DecoderState)) :
    Option (List (List Nat) × DecoderState) :=
  match r with
  | none => none
  | some (ms1, s1) =>
    match f s1 with
    | none => none
    | some (ms2, s2) => some (ms1 ++ ms2, s2)

/-- Modelled from the spec: consuming one chunk of arbitrary size,
byte by byte. -/
def feedBytes : DecoderState → List Nat → Option (List (List Nat) × DecoderState)
  | s, [] => some ([], s)
  | s, b :: rest => seqResult (feedByte s b) (fun s1 => feedBytes s1 rest)

/-- Modelled from the spec: consuming a sequence of chunks with arbitrary
boundaries. -/
def feedChunks : DecoderState → List (List Nat) → Option (List (List Nat) × DecoderState)
  | s, [] => some ([], s)
  | s, c :: rest => seqResult (feedBytes s c) (fun s1 => feedChunks s1 rest)

end framed_tcp

/-! ## The send path (`network.rs`/`engine.rs` are not under `src/`) -/

/-- The outcome of a `send` call, as far as the modelled claims need it. -/
inductive SendStatus
  | sent
  | tooBig
deriving DecidableEq, Repr

/-- Modelled from the spec: `send(endpoint, bytes)` validates
`len(bytes) <= max_message_size` for the transport of the endpoint and fails
immediately on oversize, writing nothing; otherwise it hands the payload
to the write path of the adapter (for FramedTcp, framed by the codec). The
second component is the byte sequence placed on the wire by this call. -/
def send (t : Transport) (bytes : List Nat) : SendStatus × List Nat :=
  if bytes.length ≤ t.max_message_size then
    match t with
    | .FramedTcp => (.sent, framed_tcp.encodeLen bytes.length ++ bytes)
    | _ => (.sent, bytes)
  else (.tooBig, [])

/-! ## UDP listener creation (`udp.rs` is not under `src/`) -/

/-- A bind address: IPv4 as four octets, or IPv6 (whose structure no claim
needs). -/
inductive IpAddr
  | v4 (a b c d : Nat)
  | v6 (segments : List Nat)
deriving DecidableEq, Repr

/-- `Ipv4Addr::is_multicast` of the standard library: the first octet lies
in `224 ..= 239`; never true of an IPv6 address here. -/
def IpAddr.is_ipv4_multicast : IpAddr → Bool
  | .v4 a _ _ _ => decide (224 ≤ a ∧ a ≤ 239)
  | .v6 _ => false

/-- The socket configuration a UDP listener ends up with. -/
structure UdpListenerConfig where
  multicast : Bool
  joined_group : Option IpAddr
  reuse_address : Bool
  reuse_port : Bool
deriving DecidableEq, Repr

/-- Modelled from the spec: on UDP listener creation, a bind address that
is an IPv4 address in the multicast range makes the listener join that
group and enable address/port reuse; any other bind address produces a
plain unicast datagram socket. -/
def createUdpListener (bind : IpAddr) : UdpListenerConfig :=
  if bind.is_ipv4_multicast then
    { multicast := true, joined_group := some bind,
      reuse_address := true, reuse_port := true }
  else
    { multicast := false, joined_group := none,
      reuse_address := false, reuse_port := false }

/-- The numeric value of an IPv4 address, for stating the inclusive range
`224.0.0.0` to `239.255.255.255` the way the claim words it. -/
def ipv4Num (a b c d : Nat) : Nat :=
  a * 2 ^ 24 + b * 2 ^ 16 + c * 2 ^ 8 + d

/-! ## Theorems -/

namespace framed_tcp

/-- Reading back an encoded 4-byte length recovers it. -/
theorem decodeLen_encodeLen (n : Nat) (h : n < 2 ^ 32) :
    decodeLen (encodeLen n) = n := by
  simp only [encodeLen, decodeLen]
  omega

/-- Sequencing of decoding steps is associative. -/
theorem seqResult_assoc (r : Option (List (List Nat) × DecoderState))
    (f g : DecoderState → Option (List (List Nat) × DecoderState)) :
    seqResult (seqResult r f) g = seqResult r (fun s => seqResult (f s) g) := by
  cases r with
  | none => rfl
  | some p =>
    obtain ⟨ms1, s1⟩ := p
    simp only [seqResult]
    cases hf : f s1 with
    | none => rfl
    | some q =>
      obtain ⟨ms2, s2⟩ := q
      simp only [seqResult]
      cases hg : g s2 with
      | none => rfl
      | some w =>
        obtain ⟨ms3, s3⟩ := w
        simp [List.append_assoc]

/-- Feeding a concatenation of byte lists is feeding the parts in
sequence. -/
theorem feedBytes_append (xs ys : List Nat) : ∀ s : DecoderState,
    feedBytes s (xs ++ ys) =
      seqResult (feedBytes s xs) (fun s1 => feedBytes s1 ys) := by
  induction xs with
  | nil =>
    intro s
    simp only [List.nil_append, feedBytes, seqResult]
    cases h : feedBytes s ys with
    | none => rfl
    | some p =>
      obtain ⟨a, b⟩ := p
      simp
  | cons b rest ih =>
    intro s
    simp only [List.cons_append, feedBytes]
    rw [seqResult_assoc]
    congr 1
    funext s1
    exact ih s1

/-- Feeding a sequence of chunks equals feeding their concatenation: the
decoder is insensitive to chunk boundaries. -/
theorem feedChunks_eq_join (chunks : List (List Nat)) : ∀ s : DecoderState,
    feedChunks s chunks = feedBytes s chunks.flatten := by
  induction chunks with
  | nil =>
    intro s
    rfl
  | cons c rest ih =>
    intro s
    simp only [feedChunks, List.flatten_cons]
    rw [feedBytes_append]
    congr 1
    funext s1
    exact ih s1

/-- Unfolding one byte of `feedBytes`. -/
theorem feedBytes_cons (s : DecoderState) (b : Nat) (rest : List Nat) :
    feedBytes s (b :: rest) =
      seqResult (feedByte s b) (fun s1 => feedBytes s1 rest) := rfl

/-- Sequencing after a silent step just continues from the new state. -/
theorem seqResult_silent (s1 : DecoderState)
    (f : DecoderState → Option (List (List Nat) × DecoderState)) :
    seqResult (some ([], s1)) f = f s1 := by
  cases h : f s1 with
  | none => simp [seqResult, h]
  | some p =>
    obtain ⟨a, c⟩ := p
    simp [seqResult, h]

/-- Feeding the four header bytes of a nonzero, in-ceiling length from the
initial state consumes them silently and moves to `AwaitingBody`. -/
theorem feedBytes_encodeLen (n : Nat) (hn : n ≤ MAX_TCP_PAYLOAD_LEN)
    (hpos : 0 < n) :
    feedBytes DecoderState.init (encodeLen n) =
      some ([], .awaitingBody n []) := by
  have h32 : n < 2 ^ 32 := by
    have hM : MAX_TCP_PAYLOAD_LEN = 2 ^ 32 - 1 := rfl
    omega
  have hd : decodeLen
      [n / 2 ^ 24 % 256, n / 2 ^ 16 % 256, n / 2 ^ 8 % 256, n % 256] = n :=
    decodeLen_encodeLen n h32
  have e0 : feedByte (.awaitingHeader []) (n / 2 ^ 24 % 256) =
      some ([], .awaitingHeader [n / 2 ^ 24 % 256]) := by
    simp [feedByte]
  have e1 : feedByte (.awaitingHeader [n / 2 ^ 24 % 256]) (n / 2 ^ 16 % 256) =
      some ([], .awaitingHeader [n / 2 ^ 24 % 256, n / 2 ^ 16 % 256]) := by
    simp [feedByte]
  have e2 : feedByte (.awaitingHeader [n / 2 ^ 24 % 256, n / 2 ^ 16 % 256])
      (n / 2 ^ 8 % 256) =
      some ([], .awaitingHeader
        [n / 2 ^ 24 % 256, n / 2 ^ 16 % 256, n / 2 ^ 8 % 256]) := by
    simp [feedByte]
  have e3 : feedByte (.awaitingHeader
      [n / 2 ^ 24 % 256, n / 2 ^ 16 % 256, n / 2 ^ 8 % 256]) (n % 256) =
      some ([], .awaitingBody n []) := by
    simp only [feedByte, List.cons_append, List.nil_append, List.length_cons,
      List.length_nil]
    rw [if_neg (by omega)]
    rw [hd]
    rw [if_neg (by have hM : MAX_TCP_PAYLOAD_LEN = 2 ^ 32 - 1 := rfl; omega)]
    rw [if_neg (by omega)]
  show feedBytes (.awaitingHeader [])
      [n / 2 ^ 24 % 256, n / 2 ^ 16 % 256, n / 2 ^ 8 % 256, n % 256] = _
  rw [feedBytes_cons, e0, seqResult_silent, feedBytes_cons, e1,
    seqResult_silent, feedBytes_cons, e2, seqResult_silent, feedBytes_cons,
    e3, seqResult_silent]
  rfl

/-- Feeding exactly the remaining body bytes of a frame emits one message
holding the whole accumulated payload and returns to the initial state. -/
theorem feedBytes_body (p : List Nat) : ∀ (acc : List Nat) (len : Nat),
    p ≠ [] → acc.length + p.length = len →
    feedBytes (.awaitingBody len acc) p =
      some ([acc ++ p], DecoderState.init) := by
  induction p with
  | nil =>
    intro acc len h _
    exact absurd rfl h
  | cons b rest ih =>
    intro acc len _ hlen
    simp only [List.length_cons] at hlen
    cases rest with
    | nil =>
      have hb : feedByte (.awaitingBody len acc) b =
          some ([acc ++ [b]], .awaitingHeader []) := by
        simp only [feedByte]
        rw [if_neg (by simp only [List.length_append, List.length_cons,
          List.length_nil]; simp only [List.length_nil] at hlen; omega)]
      rw [feedBytes_cons, hb]
      simp [seqResult, feedBytes, DecoderState.init]
    | cons b2 rest2 =>
      have hb : feedByte (.awaitingBody len acc) b =
          some ([], .awaitingBody len (acc ++ [b])) := by
        simp only [feedByte]
        rw [if_pos (by simp only [List.length_append, List.length_cons,
          List.length_nil]; simp only [List.length_cons] at hlen; omega)]
      have hres := ih (acc ++ [b]) len (by simp)
        (by simp only [List.length_append, List.length_cons,
          List.length_nil] at hlen ⊢; omega)
      rw [feedBytes_cons, hb, seqResult_silent, hres]
      simp

/-- Decoding an entire encoded frame from the initial state yields exactly
the one original payload and returns to the initial state. -/
theorem feedBytes_encode (payload encoded : List Nat)
    (h : encode payload = some encoded) :
    feedBytes DecoderState.init encoded =
      some ([payload], DecoderState.init) := by
  unfold encode at h
  by_cases hle : payload.length ≤ MAX_TCP_PAYLOAD_LEN
  · rw [if_pos hle] at h
    injection h with h
    subst h
    by_cases hp : payload = []
    · subst hp
      decide
    · have hpos : 0 < payload.length := List.length_pos.mpr hp
      rw [feedBytes_append]
      rw [feedBytes_encodeLen payload.length hle hpos, seqResult_silent]
      rw [feedBytes_body payload [] payload.length hp (by simp)]
      simp
  · rw [if_neg hle] at h
    exact absurd h (by simp)

end framed_tcp

/-- Claim C7: framing round-trip for FramedTcp. For every payload whose
length is at most `max_message_size(FramedTcp)`, encoding the payload and
feeding the encoded bytes to the decoder split into chunks of arbitrary
sizes and boundaries yields exactly one Message whose bytes equal the
original payload (and the decoder returns to `AwaitingHeader`), for every
choice of chunking. -/
theorem framed_round_trip :
    ∀ (payload : List Nat) (chunks : List (List Nat)),
      payload.length ≤ Transport.FramedTcp.max_message_size →
      framed_tcp.encode payload = some chunks.flatten →
      framed_tcp.feedChunks framed_tcp.DecoderState.init chunks =
        some ([payload], framed_tcp.DecoderState.init) := by
  intro payload chunks _ henc
  rw [framed_tcp.feedChunks_eq_join]
  exact framed_tcp.feedBytes_encode payload chunks.flatten henc

/-- Witness for C7: the payload `[7, 9]` encodes to `[0, 0, 0, 2, 7, 9]`,
and feeding it in the chunks `[0, 0] / [0, 2, 7] / [9]` — boundaries
crossing both the header and the body — emits exactly the one original
message. -/
theorem framed_round_trip_witness :
    ([7, 9] : List Nat).length ≤ Transport.FramedTcp.max_message_size ∧
      framed_tcp.encode [7, 9] =
        some ([[0, 0], [0, 2, 7], [9]] : List (List Nat)).flatten ∧
      framed_tcp.feedChunks framed_tcp.DecoderState.init
          [[0, 0], [0, 2, 7], [9]] =
        some ([[7, 9]], framed_tcp.DecoderState.init) :=
  ⟨by decide, by decide,
    framed_round_trip [7, 9] [[0, 0], [0, 2, 7], [9]] (by decide) (by decide)⟩

/-- Claim C1: for the four Transport variants in declaration order
(Tcp, FramedTcp, Udp, Ws), `id()` returns the distinct values 0, 1, 2, 3
respectively; `id` is injective on the variant set, and — `id` being a
pure function of the variant — its value for a given variant never changes
between calls. -/
theorem transport_id_declaration_order :
    Transport.Tcp.id = 0 ∧ Transport.FramedTcp.id = 1 ∧
      Transport.Udp.id = 2 ∧ Transport.Ws.id = 3 ∧
      (∀ t₁ t₂ : Transport, t₁.id = t₂.id → t₁ = t₂) ∧
      (∀ t : Transport, t.id = t.id) := by
  refine ⟨rfl, rfl, rfl, rfl, ?_, fun t => rfl⟩
  decide

/-- Witness for C1: the injectivity clause applied at the concrete variant
`Udp`. -/
theorem transport_id_declaration_order_witness :
    Transport.Udp.id = Transport.Udp.id ∧ Transport.Udp = Transport.Udp :=
  ⟨rfl, transport_id_declaration_order.2.2.2.2.1 Transport.Udp Transport.Udp rfl⟩

/-- Claim C2: `is_packet_based` returns true exactly for the transports
other than plain Tcp: false for Tcp, true for FramedTcp, Udp and Ws. -/
theorem is_packet_based_table :
    Transport.Tcp.is_packet_based = false ∧
      Transport.FramedTcp.is_packet_based = true ∧
      Transport.Udp.is_packet_based = true ∧
      Transport.Ws.is_packet_based = true ∧
      (∀ t : Transport, t.is_packet_based = true ↔ t ≠ Transport.Tcp) := by
  refine ⟨rfl, rfl, rfl, rfl, ?_⟩
  decide

/-- Witness for C2: the exactness clause applied at the concrete variant
`FramedTcp`. -/
theorem is_packet_based_table_witness :
    Transport.FramedTcp.is_packet_based = true :=
  (is_packet_based_table.2.2.2.2 Transport.FramedTcp).mpr (by decide)

/-- Claim C3: `is_connection_oriented` returns true for Tcp, FramedTcp and
Ws, and false for Udp — i.e. exactly for the transports other than Udp. -/
theorem is_connection_oriented_table :
    Transport.Tcp.is_connection_oriented = true ∧
      Transport.FramedTcp.is_connection_oriented = true ∧
      Transport.Ws.is_connection_oriented = true ∧
      Transport.Udp.is_connection_oriented = false ∧
      (∀ t : Transport, t.is_connection_oriented = true ↔ t ≠ Transport.Udp) := by
  refine ⟨rfl, rfl, rfl, rfl, ?_⟩
  decide

/-- Witness for C3: the exactness clause applied at the concrete variant
`Ws`. -/
theorem is_connection_oriented_table_witness :
    Transport.Ws.is_connection_oriented = true :=
  (is_connection_oriented_table.2.2.2.2 Transport.Ws).mpr (by decide)

/-- Claim C4: for every Transport variant `t`, `mount_adapter t launcher`
calls `launcher.mount` exactly once, with key `t.id` and the adapter
instance corresponding to the own variant of `t`, and performs no other
mutation of the launcher: the mount-call trace of the launcher is extended by
exactly the one entry `(t.id, t.ownAdapter)` and is otherwise unchanged. -/
theorem mount_adapter_exactly_once :
    ∀ (t : Transport) (l : AdapterLauncher),
      (t.mount_adapter l).mounts = l.mounts ++ [(t.id, t.ownAdapter)] := by
  intro t l
  cases t <;> rfl

/-- Claim C5: `max_message_size`, `is_connection_oriented` and
`is_packet_based` are pure, deterministic functions of the Transport
variant alone: they are total functions of the variant (reading or writing
no state), so two evaluations on equal variants yield equal results. -/
theorem capability_functions_deterministic :
    ∀ t₁ t₂ : Transport, t₁ = t₂ →
      t₁.max_message_size = t₂.max_message_size ∧
      t₁.is_connection_oriented = t₂.is_connection_oriented ∧
      t₁.is_packet_based = t₂.is_packet_based := by
  intro t₁ t₂ h
  subst h
  exact ⟨rfl, rfl, rfl⟩

/-- Witness for C5: the theorem applied at the concrete variant `Tcp`. -/
theorem capability_functions_deterministic_witness :
    Transport.Tcp = Transport.Tcp ∧
      (Transport.Tcp.max_message_size = Transport.Tcp.max_message_size ∧
        Transport.Tcp.is_connection_oriented = Transport.Tcp.is_connection_oriented ∧
        Transport.Tcp.is_packet_based = Transport.Tcp.is_packet_based) :=
  ⟨rfl, capability_functions_deterministic Transport.Tcp Transport.Tcp rfl⟩

/-- Claim C6: Transport is a closed type with exactly the four variants
Tcp, FramedTcp, Udp, Ws — the declaration-order enumeration is complete
and duplicate-free and the type has cardinality 4 — and every capability
operation is total on it: `id` lands in `[0, 3]` on every variant and
`mount_adapter` produces a result (one mount call) on every variant, with
no fallback or error branch. -/
theorem transport_closed_and_total :
    (∀ t : Transport, t ∈ Transport.iter) ∧ Transport.iter.Nodup ∧
      Transport.iter.length = 4 ∧ Fintype.card Transport = 4 ∧
      (∀ t : Transport, t.id ≤ 3) ∧
      (∀ (t : Transport) (l : AdapterLauncher),
        (t.mount_adapter l).mounts.length = l.mounts.length + 1) := by
  refine ⟨by decide, by decide, rfl, by decide, by decide, ?_⟩
  intro t l
  cases t <;> simp [Transport.mount_adapter, AdapterLauncher.mount]

/-- Claim C8: for every transport and every byte sequence longer than the
ceiling `max_message_size` of the transport, `send` fails with the oversize error and
places no byte on the wire, so the peer observes no Message for that
call. -/
theorem send_oversize_rejected :
    ∀ (t : Transport) (bytes : List Nat),
      t.max_message_size < bytes.length →
      send t bytes = (SendStatus.tooBig, []) := by
  intro t bytes h
  unfold send
  rw [if_neg (by omega)]

/-- Witness for C8: a 65508-byte payload on Udp (ceiling 65507) is
rejected with nothing written. -/
theorem send_oversize_rejected_witness :
    Transport.Udp.max_message_size < (List.replicate 65508 0).length ∧
      send Transport.Udp (List.replicate 65508 0) = (SendStatus.tooBig, []) :=
  ⟨by rw [List.length_replicate]; decide,
    send_oversize_rejected Transport.Udp (List.replicate 65508 0)
      (by rw [List.length_replicate]; decide)⟩

/-- Claim C9: a Udp listener enters multicast mode exactly when the bind
address is an IPv4 address in the inclusive numeric range `224.0.0.0` to
`239.255.255.255`; such a listener joins the group and enables
address/port reuse, while any other bind address (out-of-range IPv4 or
IPv6) yields a plain unicast socket. -/
theorem udp_multicast_range :
    (∀ a b c d : Nat, b < 256 → c < 256 → d < 256 →
      ((createUdpListener (.v4 a b c d)).multicast = true ↔
        ipv4Num 224 0 0 0 ≤ ipv4Num a b c d ∧
          ipv4Num a b c d ≤ ipv4Num 239 255 255 255)) ∧
      (∀ bind : IpAddr, (createUdpListener bind).multicast = true →
        createUdpListener bind =
          { multicast := true, joined_group := some bind,
            reuse_address := true, reuse_port := true }) ∧
      (∀ bind : IpAddr, (createUdpListener bind).multicast = false →
        createUdpListener bind =
          { multicast := false, joined_group := none,
            reuse_address := false, reuse_port := false }) ∧
      (∀ s : List Nat, (createUdpListener (.v6 s)).multicast = false) := by
  refine ⟨?_, ?_, ?_, ?_⟩
  · intro a b c d hb hc hd
    by_cases h : 224 ≤ a ∧ a ≤ 239
    · simp only [createUdpListener, IpAddr.is_ipv4_multicast,
        decide_eq_true_eq, if_pos h, ipv4Num]
      constructor
      · intro
        omega
      · intro
        trivial
    · simp only [createUdpListener, IpAddr.is_ipv4_multicast,
        decide_eq_true_eq, if_neg h, ipv4Num]
      constructor
      · intro hmc
        exact absurd hmc (by simp)
      · intro hr
        omega
  · intro bind h
    by_cases hm : bind.is_ipv4_multicast
    · simp [createUdpListener, hm]
    · simp [createUdpListener, hm] at h
  · intro bind h
    by_cases hm : bind.is_ipv4_multicast
    · simp [createUdpListener, hm] at h
    · simp [createUdpListener, hm]
  · intro s
    simp [createUdpListener, IpAddr.is_ipv4_multicast]

/-- Witness for C9: binding to `230.1.2.3` enters multicast mode, and the
address lies in the stated numeric range. -/
theorem udp_multicast_range_witness :
    (1 < 256 ∧ 2 < 256 ∧ 3 < 256) ∧
      ((createUdpListener (.v4 230 1 2 3)).multicast = true ↔
        ipv4Num 224 0 0 0 ≤ ipv4Num 230 1 2 3 ∧
          ipv4Num 230 1 2 3 ≤ ipv4Num 239 255 255 255) :=
  ⟨⟨by decide, by decide, by decide⟩,
    udp_multicast_range.1 230 1 2 3 (by decide) (by decide) (by decide)⟩

/-- Claim C10: the Display implementation always succeeds and renders
exactly the declared variant name — identical to the Debug rendering —
for every variant. -/
theorem display_renders_variant_name :
    (∀ t : Transport, t.display_fmt = Except.ok t.debug_fmt) ∧
      Transport.Tcp.display_fmt = Except.ok "Tcp" ∧
      Transport.FramedTcp.display_fmt = Except.ok "FramedTcp" ∧
      Transport.Udp.display_fmt = Except.ok "Udp" ∧
      Transport.Ws.display_fmt = Except.ok "Ws" :=
  ⟨fun _ => rfl, rfl, rfl, rfl, rfl⟩

end MessageIo
